import Mathlib

/-!
Shallow embedding of the conditional-visibility engine of the formbuilder
repository (client/src/App.tsx and the FormFiller component), together with
the submit-time validation and the builder save-time validation.

JavaScript numbers are modelled as integers (the program only compares and
tests them for zero), JavaScript strict equality as a typed comparison that
is false across types, and JavaScript objects holding answers as association
lists keyed by field id.
-/

set_option autoImplicit false

namespace FormSpec

/-- A rule comparand: the TypeScript type of ConditionalRule.value is
string | number | boolean. -/
inductive Prim where
  | pStr (s : String)
  | pNum (n : Int)
  | pBool (b : Bool)
deriving DecidableEq

/-- A browser File object as the form filler sees it: a name and the base64
content that fileToBase64 would produce for it (the asynchronous read is
modelled as a field access). -/
structure JSFile where
  name : String
  base64 : String
deriving DecidableEq

/-- An Airtable attachment record built by submitForm in the FormFiller:
the object literal with keys filename and base64. -/
structure Attachment where
  filename : String
  base64 : String
deriving DecidableEq

/-- A stored answer value: the FormResponse value type is
string | string[] | number | boolean | File[], and the processed payload can
also hold attachment arrays. -/
inductive Value where
  | vStr (s : String)
  | vNum (n : Int)
  | vBool (b : Bool)
  | vList (xs : List String)
  | vFiles (fs : List JSFile)
  | vAttach (atts : List Attachment)
deriving DecidableEq

/-- Rule operators: the union 'equals' | 'notEquals' | 'contains' | 'gt' | 'lt'. -/
inductive Op where
  | equals
  | notEquals
  | contains
  | gt
  | lt
deriving DecidableEq

/-- Match modes: the union 'all' | 'any'. -/
inductive MatchMode where
  | all
  | any
deriving DecidableEq

/-- interface ConditionalRule of App.tsx. -/
structure ConditionalRule where
  fieldId : String
  operator : Op
  value : Prim
deriving DecidableEq

/-- The conditionalLogic object attached to every form field. -/
structure ConditionalLogic where
  matchMode : MatchMode
  rules : List ConditionalRule
deriving DecidableEq

/-- Field input types of the builder. -/
inductive FieldType where
  | shortText
  | longText
  | singleSelect
  | multipleSelect
  | attachment
deriving DecidableEq

/-- interface FormField of App.tsx; options entries are (id, name) pairs. -/
structure FormField where
  fieldId : String
  label : String
  fieldType : FieldType
  required : Bool
  placeholder : Option String
  helpText : Option String
  options : List (String × String)
  conditionalLogic : ConditionalLogic
deriving DecidableEq

/-- interface FormDefinition of App.tsx (the persisted id is irrelevant to
evaluation and omitted). -/
structure FormDefinition where
  name : String
  airtableBaseId : String
  airtableTableId : String
  fields : List FormField
deriving DecidableEq

/-- The FormResponse object: answers keyed by field id. -/
abbrev AnswerMap := List (String × Value)

/-- Property access formResponses[fieldId]: the first binding for the key, or
undefined (none) when the key is absent. -/
def getAnswer (answers : AnswerMap) (fieldId : String) : Option Value :=
  match answers with
  | [] => none
  | (k, v) :: rest => if k = fieldId then some v else getAnswer rest fieldId

/-- JavaScript strict equality between a defined answer value and a rule
comparand: true only when the runtime types agree and the contents agree;
arrays are never strictly equal to a primitive. -/
def strictEq : Value → Prim → Bool
  | Value.vStr a, Prim.pStr b => decide (a = b)
  | Value.vNum a, Prim.pNum b => decide (a = b)
  | Value.vBool a, Prim.pBool b => decide (a = b)
  | _, _ => false

/-- triggerValue === rule.value, where the trigger value may be undefined. -/
def strictEqOpt : Option Value → Prim → Bool
  | some v, p => strictEq v p
  | none, _ => false

/-- JavaScript String(x) applied to a rule comparand. -/
def Prim.toJSString : Prim → String
  | Prim.pStr s => s
  | Prim.pNum n => toString n
  | Prim.pBool b => if b then "true" else "false"

/-- Does the second character list start with the first one. -/
def charListPrefixB : List Char → List Char → Bool
  | [], _ => true
  | _ :: _, [] => false
  | a :: as1, b :: bs1 => decide (a = b) && charListPrefixB as1 bs1

/-- Does the second character list contain the first one as a contiguous run. -/
def charListInfixB : List Char → List Char → Bool
  | needle, [] => needle.isEmpty
  | needle, c :: rest => charListPrefixB needle (c :: rest) || charListInfixB needle rest

/-- JavaScript hay.includes(needle) substring test. -/
def strIncludes (hay needle : String) : Bool :=
  charListInfixB needle.toList hay.toList

/-- The rule evaluation switch that appears verbatim both in
isFieldVisibleInPreview (FormBuilder) and in isFieldVisible (FormViewer) in
App.tsx: the body of the rules.map callback, factored out once here. -/
def ruleResult (answers : AnswerMap) (rule : ConditionalRule) : Bool :=
  let triggerValue := getAnswer answers rule.fieldId
  match rule.operator with
  | Op.equals => strictEqOpt triggerValue rule.value
  | Op.notEquals => !(strictEqOpt triggerValue rule.value)
  | Op.contains =>
    match triggerValue with
    | some (Value.vStr s) => strIncludes s rule.value.toJSString
    | _ => false
  | Op.gt =>
    match triggerValue, rule.value with
    | some (Value.vNum a), Prim.pNum b => decide (a > b)
    | _, _ => false
  | Op.lt =>
    match triggerValue, rule.value with
    | some (Value.vNum a), Prim.pNum b => decide (a < b)
    | _, _ => false

/-- JavaScript String.prototype.trim: drop whitespace characters from both
ends of the string. -/
def jsStringTrim (s : String) : String :=
  (((s.toList.dropWhile Char.isWhitespace).reverse.dropWhile Char.isWhitespace).reverse).asString

/-- JavaScript truthiness of a defined answer value. -/
def Value.truthy : Value → Bool
  | Value.vStr s => decide (s ≠ "")
  | Value.vNum n => decide (n ≠ 0)
  | Value.vBool b => b
  | Value.vList _ => true
  | Value.vFiles _ => true
  | Value.vAttach _ => true

/-- Array.isArray(value). -/
def Value.isArrayJS : Value → Bool
  | Value.vList _ => true
  | Value.vFiles _ => true
  | Value.vAttach _ => true
  | _ => false

/-- value.length for array values (0 elsewhere; only read under isArrayJS). -/
def Value.arrayLength : Value → Nat
  | Value.vList xs => xs.length
  | Value.vFiles fs => fs.length
  | Value.vAttach atts => atts.length
  | _ => 0

/-- typeof value === 'string'. -/
def Value.isStringJS : Value → Bool
  | Value.vStr _ => true
  | _ => false

/-- value.trim() for string values (only read under isStringJS). -/
def Value.jsTrim : Value → String
  | Value.vStr s => jsStringTrim s
  | _ => ""

/-- The emptiness test of submitForm for a required field:
not value, or an array of length 0, or a string whose trim is empty; an
absent answer (undefined) is falsy. This block appears verbatim in the
FormViewer submitForm of App.tsx and in the FormFiller submitForm. -/
def isMissingRequired : Option Value → Bool
  | none => true
  | some v =>
    !v.truthy || (v.isArrayJS && decide (v.arrayLength = 0)) ||
      (v.isStringJS && decide (v.jsTrim = ""))

/-- JavaScript truthiness of a rule comparand. -/
def Prim.truthy : Prim → Bool
  | Prim.pStr s => decide (s ≠ "")
  | Prim.pNum n => decide (n ≠ 0)
  | Prim.pBool b => b

namespace FormBuilder

/-- isFieldVisibleInPreview of the FormBuilder component in App.tsx: map the
rule switch over the rules, then combine with every for match all and with
some for match any; no rules means visible. -/
def isFieldVisibleInPreview (previewResponses : AnswerMap) (field : FormField) : Bool :=
  if field.conditionalLogic.rules.length = 0 then true
  else
    let results := field.conditionalLogic.rules.map (fun rule => ruleResult previewResponses rule)
    match field.conditionalLogic.matchMode with
    | MatchMode.all => results.all (fun r => r)
    | MatchMode.any => results.any (fun r => r)

end FormBuilder

namespace FormViewer

/-- isFieldVisible of the FormViewer component in App.tsx; its body is
character for character the body of isFieldVisibleInPreview, reading the
formResponses map instead of previewResponses. -/
def isFieldVisible (formResponses : AnswerMap) (field : FormField) : Bool :=
  if field.conditionalLogic.rules.length = 0 then true
  else
    let results := field.conditionalLogic.rules.map (fun rule => ruleResult formResponses rule)
    match field.conditionalLogic.matchMode with
    | MatchMode.all => results.all (fun r => r)
    | MatchMode.any => results.any (fun r => r)

/-- The fields that the validation loop of the FormViewer submitForm pushes
an error for: the visible fields that are required and whose answer fails the
emptiness test. -/
def failingFields (form : FormDefinition) (answers : AnswerMap) : List FormField :=
  ((form.fields.filter (fun field => isFieldVisible answers field)).filter
    (fun field => field.required && isMissingRequired (getAnswer answers field.fieldId)))

/-- The validationErrors list built by the FormViewer submitForm: one message
per failing field, in form order. -/
def validationErrors (form : FormDefinition) (answers : AnswerMap) : List String :=
  (failingFields form answers).map (fun field => field.label ++ " is required")

/-- The request body data sent by the FormViewer submitForm when validation
passes: the whole formResponses object, unmodified; none when validation has
errors and the function returns early. -/
def submitPayload (form : FormDefinition) (answers : AnswerMap) : Option AnswerMap :=
  if validationErrors form answers = [] then some answers else none

end FormViewer

namespace FormFiller

/-- isFieldVisible of the FormFiller component: a rule with an unset trigger
field id or an empty string comparand counts as satisfied, otherwise the
trigger answer must be strictly equal to the comparand; the results are
combined with some, whatever the match mode; no rules means visible. -/
def isFieldVisible (formResponses : AnswerMap) (field : FormField) : Bool :=
  if field.conditionalLogic.rules.length = 0 then true
  else
    field.conditionalLogic.rules.any (fun rule =>
      if rule.fieldId = "" || rule.value = Prim.pStr "" then true
      else strictEqOpt (getAnswer formResponses rule.fieldId) rule.value)

/-- The fields that the validation loop of the FormFiller submitForm pushes
an error for (same loop as the FormViewer one, over this visibility test). -/
def failingFields (form : FormDefinition) (answers : AnswerMap) : List FormField :=
  ((form.fields.filter (fun field => isFieldVisible answers field)).filter
    (fun field => field.required && isMissingRequired (getAnswer answers field.fieldId)))

/-- The validationErrors list built by the FormFiller submitForm. -/
def validationErrors (form : FormDefinition) (answers : AnswerMap) : List String :=
  (failingFields form answers).map (fun field => field.label ++ " is required")

/-- One iteration of the processedResponses loop of the FormFiller
submitForm: a non-empty File array becomes an array of attachment records,
every other value passes through unchanged. -/
def processEntry : String × Value → String × Value
  | (fieldId, Value.vFiles (f :: rest)) =>
    (fieldId, Value.vAttach ((f :: rest).map (fun file => Attachment.mk file.name file.base64)))
  | (fieldId, v) => (fieldId, v)

/-- The processedResponses object of the FormFiller submitForm: the loop over
Object.entries(formResponses). -/
def processedResponses (answers : AnswerMap) : AnswerMap :=
  answers.map processEntry

/-- The request body data sent by the FormFiller submitForm when validation
passes: processedResponses over the whole formResponses object; none when
validation has errors and the function returns early. -/
def submitPayload (form : FormDefinition) (answers : AnswerMap) : Option AnswerMap :=
  if validationErrors form answers = [] then some (processedResponses answers) else none

end FormFiller

namespace FormBuilder

/-- The inner rules.forEach of the saveForm validation in App.tsx, carrying
the one-based field number and the one-based rule number used in the
messages: an error when the rule has no selected trigger field, and an error
when the comparand is falsy and not the number 0. -/
def ruleErrorsList (fieldNum : Nat) (ruleNum : Nat) : List ConditionalRule → List String
  | [] => []
  | rule :: rest =>
    (if rule.fieldId = "" then
      ["Field " ++ toString fieldNum ++ ": Rule " ++ toString ruleNum ++
        " - Please select a question to watch"]
    else []) ++
    (if Prim.truthy rule.value = false && decide (rule.value ≠ Prim.pNum 0) then
      ["Field " ++ toString fieldNum ++ ": Rule " ++ toString ruleNum ++
        " - Please enter a value"]
    else []) ++
    ruleErrorsList fieldNum (ruleNum + 1) rest

/-- The outer formFields.forEach of the saveForm validation in App.tsx. -/
def fieldErrorsList (fieldNum : Nat) : List FormField → List String
  | [] => []
  | field :: rest =>
    (if jsStringTrim field.label = "" then
      ["Field " ++ toString fieldNum ++ ": Question label is required"]
    else []) ++
    ruleErrorsList fieldNum 1 field.conditionalLogic.rules ++
    fieldErrorsList (fieldNum + 1) rest

/-- The validationErrors list built by saveForm: the form name check followed
by the per-field checks. -/
def saveFormValidationErrors (formName : String) (formFields : List FormField) : List String :=
  (if jsStringTrim formName = "" then ["Form name is required"] else []) ++
  fieldErrorsList 1 formFields

/-- Whether saveForm proceeds to persist the form: the early guard on empty
userId, base, table, name or field list, then the validation error list must
be empty. -/
def saveFormAccepts (userId selectedBase selectedTable formName : String)
    (formFields : List FormField) : Bool :=
  if userId = "" || selectedBase = "" || selectedTable = "" || formName = "" ||
      formFields.length = 0 then
    false
  else
    decide (saveFormValidationErrors formName formFields = [])

end FormBuilder

namespace Examples

/-- A short text form field with the given conditional logic, for concrete
checks. -/
def mkField (fid lbl : String) (req : Bool) (mm : MatchMode) (rs : List ConditionalRule) :
    FormField :=
  FormField.mk fid lbl FieldType.shortText req none none [] (ConditionalLogic.mk mm rs)

/-- Rule: answer to field A equals the text x. -/
def ruleA : ConditionalRule := ConditionalRule.mk "A" Op.equals (Prim.pStr "x")

/-- Rule: answer to field B equals the text y. -/
def ruleB : ConditionalRule := ConditionalRule.mk "B" Op.equals (Prim.pStr "y")

/-- A field demanding, under match all, both ruleA and ruleB. -/
def fieldAllAB : FormField := mkField "C" "City" false MatchMode.all [ruleA, ruleB]

/-- Answers satisfying ruleA only. -/
def ansAx : AnswerMap := [("A", Value.vStr "x")]

/-- Answers satisfying both ruleA and ruleB. -/
def ansBoth : AnswerMap := [("A", Value.vStr "x"), ("B", Value.vStr "y")]

/-- A match any field with one rule whose comparand is the empty string. -/
def fieldAnyEmptyCmp : FormField :=
  mkField "C" "City" false MatchMode.any [ConditionalRule.mk "T" Op.equals (Prim.pStr "")]

/-- A rule with an unset trigger field and an empty comparand. -/
def unsetRule : ConditionalRule := ConditionalRule.mk "" Op.equals (Prim.pStr "")

/-- A match any field holding only the unset rule. -/
def fieldUnsetRule : FormField := mkField "C" "City" false MatchMode.any [unsetRule]

/-- A required, unconditionally visible numeric question. -/
def fieldAge : FormField := mkField "age" "Age" true MatchMode.all []

/-- A one field form around fieldAge. -/
def formAge : FormDefinition := FormDefinition.mk "F" "b" "t" [fieldAge]

/-- Answers giving fieldAge the number 0. -/
def ansAgeZero : AnswerMap := [("age", Value.vNum 0)]

/-- A required, unconditionally visible boolean question. -/
def fieldSub : FormField := mkField "sub" "Subscribed" true MatchMode.all []

/-- A one field form around fieldSub. -/
def formSub : FormDefinition := FormDefinition.mk "F" "b" "t" [fieldSub]

/-- Answers giving fieldSub the boolean false. -/
def ansSubFalse : AnswerMap := [("sub", Value.vBool false)]

/-- An unconditional optional question A. -/
def fieldQ1 : FormField := mkField "A" "Q1" false MatchMode.all []

/-- A question B shown only when A was answered yes. -/
def fieldQ2 : FormField :=
  mkField "B" "Q2" false MatchMode.all [ConditionalRule.mk "A" Op.equals (Prim.pStr "yes")]

/-- The two field form around fieldQ1 and fieldQ2. -/
def formQ : FormDefinition := FormDefinition.mk "F" "b" "t" [fieldQ1, fieldQ2]

/-- Answers where A is no (so B is hidden) but B still carries a stale answer. -/
def ansQ : AnswerMap := [("A", Value.vStr "no"), ("B", Value.vStr "stale")]

/-- The required variant of fieldQ2. -/
def fieldQ2req : FormField :=
  mkField "B" "Q2" true MatchMode.all [ConditionalRule.mk "A" Op.equals (Prim.pStr "yes")]

/-- The two field form around fieldQ1 and the required fieldQ2req. -/
def formQreq : FormDefinition := FormDefinition.mk "F" "b" "t" [fieldQ1, fieldQ2req]

/-- Answers where A is no, so fieldQ2req is hidden and unanswered. -/
def ansQreq : AnswerMap := [("A", Value.vStr "no")]

/-- A field with no rules under match all. -/
def fieldNoRulesAll : FormField := mkField "n" "N" false MatchMode.all []

/-- A field with no rules under match any. -/
def fieldNoRulesAny : FormField := mkField "n" "N" false MatchMode.any []

/-- A well formed rule with a selected trigger and a truthy comparand. -/
def goodRule : ConditionalRule := ConditionalRule.mk "f1" Op.equals (Prim.pStr "yes")

/-- A plain field with no rules, for a saveable form. -/
def fieldPlain : FormField := mkField "f1" "Question one" false MatchMode.all []

/-- A field whose only rule is goodRule, for a saveable form. -/
def fieldGoodRule : FormField := mkField "f2" "Question two" false MatchMode.all [goodRule]

end Examples

/-- A string trims to the empty string exactly when every character is
whitespace. -/
theorem jsStringTrim_eq_empty_iff (s : String) :
    jsStringTrim s = "" ↔ s.toList.all Char.isWhitespace = true := by
  constructor
  · intro h
    have h2 : (((s.toList.dropWhile Char.isWhitespace).reverse.dropWhile
        Char.isWhitespace).reverse) = [] := by
      have := congrArg String.toList h
      simpa [jsStringTrim, List.asString] using this
    simp only [List.reverse_eq_nil_iff, List.dropWhile_eq_nil_iff, List.mem_reverse] at h2
    rw [List.all_eq_true]
    intro x hx
    rcases List.takeWhile_append_dropWhile (p := Char.isWhitespace) (l := s.toList) ▸ hx with h3
    rcases List.mem_append.mp h3 with h4 | h4
    · exact List.mem_takeWhile_imp h4
    · exact h2 x h4
  · intro h
    rw [List.all_eq_true] at h
    have h5 : List.dropWhile Char.isWhitespace s.data = [] := by
      rw [List.dropWhile_eq_nil_iff]
      exact fun x hx => h x hx
    show String.mk _ = ""
    rw [show ("" : String) = String.mk [] from rfl]
    simp [jsStringTrim, String.toList, h5, List.asString]

/-- The boolean prefix test agrees with the list prefix relation. -/
theorem charListPrefixB_iff (n h : List Char) : charListPrefixB n h = true ↔ n <+: h := by
  induction n generalizing h with
  | nil => simp [charListPrefixB]
  | cons a as1 ih =>
    cases h with
    | nil => simp [charListPrefixB]
    | cons b bs1 =>
      simp [charListPrefixB, ih, List.cons_prefix_cons, And.comm]

/-- The boolean infix test agrees with the list infix relation. -/
theorem charListInfixB_iff (n h : List Char) : charListInfixB n h = true ↔ n <:+: h := by
  induction h with
  | nil => simp [charListInfixB, List.isEmpty_iff]
  | cons c rest ih =>
    simp [charListInfixB, ih, List.infix_cons_iff, charListPrefixB_iff]

/-- The JavaScript includes test holds exactly when the needle occurs as a
contiguous run of characters inside the haystack. -/
theorem strIncludes_iff (hay needle : String) :
    strIncludes hay needle = true ↔ ∃ l1 l2, l1 ++ needle.toList ++ l2 = hay.toList := by
  rw [strIncludes, charListInfixB_iff]
  exact Iff.rfl

/-- The required field emptiness test of submitForm holds exactly for an
absent answer, a whitespace only (or empty) string, an empty array of any
kind, the number 0, or the boolean false. -/
theorem isMissingRequired_iff (o : Option Value) :
    isMissingRequired o = true ↔
      o = none ∨
      (∃ s, o = some (Value.vStr s) ∧ s.toList.all Char.isWhitespace = true) ∨
      o = some (Value.vList []) ∨
      o = some (Value.vFiles []) ∨
      o = some (Value.vAttach []) ∨
      o = some (Value.vNum 0) ∨
      o = some (Value.vBool false) := by
  rcases o with _ | v
  · simp [isMissingRequired]
  · cases v with
    | vStr s =>
      simp [isMissingRequired, Value.truthy, Value.isArrayJS, Value.isStringJS, Value.jsTrim,
        jsStringTrim_eq_empty_iff]
      rintro rfl x hx
      simp at hx
    | vNum n =>
      simp [isMissingRequired, Value.truthy, Value.isArrayJS, Value.isStringJS, Value.jsTrim]
    | vBool b =>
      simp [isMissingRequired, Value.truthy, Value.isArrayJS, Value.isStringJS, Value.jsTrim]
    | vList xs =>
      simp [isMissingRequired, Value.truthy, Value.isArrayJS, Value.isStringJS, Value.jsTrim,
        Value.arrayLength, List.length_eq_zero]
    | vFiles fs =>
      simp [isMissingRequired, Value.truthy, Value.isArrayJS, Value.isStringJS, Value.jsTrim,
        Value.arrayLength, List.length_eq_zero]
    | vAttach atts =>
      simp [isMissingRequired, Value.truthy, Value.isArrayJS, Value.isStringJS, Value.jsTrim,
        Value.arrayLength, List.length_eq_zero]

/-- Processing a submitForm entry never changes its field id. -/
theorem processEntry_fst (e : String × Value) : (FormFiller.processEntry e).1 = e.1 := by
  rcases e with ⟨k, v⟩
  cases v with
  | vFiles fs => cases fs <;> rfl
  | vStr s => rfl
  | vNum n => rfl
  | vBool b => rfl
  | vList xs => rfl
  | vAttach atts => rfl

/-- The processed payload carries exactly the field ids of the stored
answers, in order. -/
theorem processedResponses_fst (answers : AnswerMap) :
    (FormFiller.processedResponses answers).map Prod.fst = answers.map Prod.fst := by
  induction answers with
  | nil => rfl
  | cons e rest ih =>
    simp only [FormFiller.processedResponses, List.map_cons] at *
    rw [processEntry_fst, ih]

/-- When the rule level saveForm checks produce no message, every rule has a
selected trigger field and a comparand that is truthy or the number 0. -/
theorem ruleErrorsList_eq_nil (fieldNum ruleNum : Nat) (rs : List ConditionalRule)
    (h : FormBuilder.ruleErrorsList fieldNum ruleNum rs = []) :
    ∀ r ∈ rs, r.fieldId ≠ "" ∧ (Prim.truthy r.value = true ∨ r.value = Prim.pNum 0) := by
  induction rs generalizing ruleNum with
  | nil => intro r hr; cases hr
  | cons rule rest ih =>
    rw [FormBuilder.ruleErrorsList] at h
    rcases List.append_eq_nil.mp h with ⟨h12, hrec⟩
    rcases List.append_eq_nil.mp h12 with ⟨h1, h2⟩
    intro r hmem
    rcases List.mem_cons.mp hmem with rfl | hmem2
    · constructor
      · intro hc
        simp [hc] at h1
      · by_cases ht : Prim.truthy r.value = true
        · exact Or.inl ht
        · by_cases hv : r.value = Prim.pNum 0
          · exact Or.inr hv
          · rw [Bool.not_eq_true] at ht
            simp [ht, hv] at h2
    · exact ih (ruleNum + 1) hrec r hmem2

/-- When the field level saveForm checks produce no message, every rule of
every field is well formed in the ruleErrorsList sense. -/
theorem fieldErrorsList_eq_nil (fieldNum : Nat) (fs : List FormField)
    (h : FormBuilder.fieldErrorsList fieldNum fs = []) :
    ∀ f ∈ fs, ∀ r ∈ f.conditionalLogic.rules,
      r.fieldId ≠ "" ∧ (Prim.truthy r.value = true ∨ r.value = Prim.pNum 0) := by
  induction fs generalizing fieldNum with
  | nil => intro f hf; cases hf
  | cons field rest ih =>
    rw [FormBuilder.fieldErrorsList] at h
    rcases List.append_eq_nil.mp h with ⟨h12, hrec⟩
    rcases List.append_eq_nil.mp h12 with ⟨_, h2⟩
    intro f hmem
    rcases List.mem_cons.mp hmem with rfl | hmem2
    · exact ruleErrorsList_eq_nil fieldNum 1 f.conditionalLogic.rules h2
    · exact ih (fieldNum + 1) hrec f hmem2

/-- Claim C1, counterexample: the FormFiller visibility evaluator is also a
visibility evaluator of this program, and under matchMode all it shows a
field whose second rule evaluates false, so the claimed iff fails on it. -/
theorem c1_counterexample :
    Examples.fieldAllAB.conditionalLogic.matchMode = MatchMode.all ∧
    Examples.ruleB ∈ Examples.fieldAllAB.conditionalLogic.rules ∧
    ruleResult Examples.ansAx Examples.ruleB = false ∧
    FormFiller.isFieldVisible Examples.ansAx Examples.fieldAllAB = true := by decide

/-- Claim C1, amended: for the App.tsx evaluator (FormViewer, and the
identical builder preview) with a non empty rule list, matchMode all gives
the conjunction and matchMode any the disjunction of the rule results. -/
theorem c1_matchmode_semantics (answers : AnswerMap) (field : FormField)
    (hne : field.conditionalLogic.rules ≠ []) :
    (field.conditionalLogic.matchMode = MatchMode.all →
      (FormViewer.isFieldVisible answers field = true ↔
        ∀ r ∈ field.conditionalLogic.rules, ruleResult answers r = true)) ∧
    (field.conditionalLogic.matchMode = MatchMode.any →
      (FormViewer.isFieldVisible answers field = true ↔
        ∃ r ∈ field.conditionalLogic.rules, ruleResult answers r = true)) := by
  have hlen : ¬ field.conditionalLogic.rules.length = 0 := by
    simpa [List.length_eq_zero] using hne
  constructor <;> intro hm <;>
    simp [FormViewer.isFieldVisible, hlen, hm, List.all_eq_true, List.any_eq_true]

/-- Claim C1, witness: a concrete match all field whose two rules both hold
is visible, through the amended theorem. -/
theorem c1_matchmode_semantics_witness :
    FormViewer.isFieldVisible Examples.ansBoth Examples.fieldAllAB = true :=
  ((c1_matchmode_semantics Examples.ansBoth Examples.fieldAllAB (by decide)).1
    (by decide)).mpr (by decide)

/-- Claim C2, counterexample: on a rule with an empty comparand, the builder
preview evaluator hides the field while the FormFiller live evaluator shows
it, so the two renderers do not share one evaluation. -/
theorem c2_counterexample :
    FormBuilder.isFieldVisibleInPreview [] Examples.fieldAnyEmptyCmp = false ∧
    FormFiller.isFieldVisible [] Examples.fieldAnyEmptyCmp = true := by decide

/-- Claim C2, amended: the two evaluators inside App.tsx, builder preview and
FormViewer, do compute the same boolean on every input; the FormFiller
component evaluator is the one that disagrees. -/
theorem c2_preview_viewer_agree (answers : AnswerMap) (field : FormField) :
    FormBuilder.isFieldVisibleInPreview answers field =
      FormViewer.isFieldVisible answers field := rfl

/-- Claim C3: operator semantics of the shared App.tsx rule switch. equals
holds only on strictly equal same typed values, notEquals is its exact
complement, contains is false off strings and otherwise a substring test on
the comparands string form, gt and lt demand two numbers in the ordering. -/
theorem c3_operator_semantics (answers : AnswerMap) (rule : ConditionalRule) :
    (rule.operator = Op.equals →
      (ruleResult answers rule = true ↔
        ((∃ s, getAnswer answers rule.fieldId = some (Value.vStr s) ∧ rule.value = Prim.pStr s) ∨
         (∃ n, getAnswer answers rule.fieldId = some (Value.vNum n) ∧ rule.value = Prim.pNum n) ∨
         (∃ b, getAnswer answers rule.fieldId = some (Value.vBool b) ∧
           rule.value = Prim.pBool b)))) ∧
    (rule.operator = Op.notEquals →
      ruleResult answers rule =
        !(ruleResult answers (ConditionalRule.mk rule.fieldId Op.equals rule.value))) ∧
    (rule.operator = Op.contains →
      ((∀ s, getAnswer answers rule.fieldId ≠ some (Value.vStr s)) →
        ruleResult answers rule = false) ∧
      (∀ s, getAnswer answers rule.fieldId = some (Value.vStr s) →
        (ruleResult answers rule = true ↔
          ∃ l1 l2, l1 ++ (Prim.toJSString rule.value).toList ++ l2 = s.toList))) ∧
    (rule.operator = Op.gt →
      (ruleResult answers rule = true ↔
        ∃ a b, getAnswer answers rule.fieldId = some (Value.vNum a) ∧
          rule.value = Prim.pNum b ∧ a > b)) ∧
    (rule.operator = Op.lt →
      (ruleResult answers rule = true ↔
        ∃ a b, getAnswer answers rule.fieldId = some (Value.vNum a) ∧
          rule.value = Prim.pNum b ∧ a < b)) := by
  rcases rule with ⟨fid, op, v⟩
  refine ⟨?_, ?_, ?_, ?_, ?_⟩ <;> intro hop <;> subst hop
  · rcases hga : getAnswer answers fid with _ | val
    · simp [ruleResult, strictEqOpt, hga]
    · cases val <;> cases v <;>
        simp [ruleResult, strictEqOpt, strictEq, hga, eq_comm]
  · simp [ruleResult]
  · constructor
    · intro hnone
      rcases hga : getAnswer answers fid with _ | val
      · simp [ruleResult, hga]
      · cases val with
        | vStr s => exact absurd hga (hnone s)
        | vNum n => simp [ruleResult, hga]
        | vBool b => simp [ruleResult, hga]
        | vList xs => simp [ruleResult, hga]
        | vFiles fs => simp [ruleResult, hga]
        | vAttach atts => simp [ruleResult, hga]
    · intro s hs
      rw [show ruleResult answers (ConditionalRule.mk fid Op.contains v) =
        strIncludes s (Prim.toJSString v) by simp [ruleResult, hs]]
      exact strIncludes_iff s (Prim.toJSString v)
  · rcases hga : getAnswer answers fid with _ | val
    · simp [ruleResult, hga]
    · cases val <;> cases v <;> simp [ruleResult, hga]
  · rcases hga : getAnswer answers fid with _ | val
    · simp [ruleResult, hga]
    · cases val <;> cases v <;> simp [ruleResult, hga]

/-- Claim C3, witness: notEquals on a concrete satisfied trigger really is
the complement of equals there. -/
theorem c3_operator_semantics_witness :
    ruleResult Examples.ansAx (ConditionalRule.mk "A" Op.notEquals (Prim.pStr "x")) =
      !(ruleResult Examples.ansAx (ConditionalRule.mk "A" Op.equals (Prim.pStr "x"))) :=
  (c3_operator_semantics Examples.ansAx
    (ConditionalRule.mk "A" Op.notEquals (Prim.pStr "x"))).2.1 rfl

/-- Claim C4, counterexample: a visible required field answered with the
number 0, and one answered with the boolean false, both produce a required
error, though the claim says they are treated as present. -/
theorem c4_counterexample :
    FormViewer.isFieldVisible Examples.ansAgeZero Examples.fieldAge = true ∧
    Examples.fieldAge.required = true ∧
    getAnswer Examples.ansAgeZero "age" = some (Value.vNum 0) ∧
    FormViewer.validationErrors Examples.formAge Examples.ansAgeZero = ["Age is required"] ∧
    getAnswer Examples.ansSubFalse "sub" = some (Value.vBool false) ∧
    FormViewer.validationErrors Examples.formSub Examples.ansSubFalse =
      ["Subscribed is required"] := by decide

/-- Claim C4, amended: a visible required field fails validation exactly when
its answer is absent, an empty or whitespace only string, an empty array, the
number 0, or the boolean false: JavaScript falsiness makes 0 and false count
as missing. -/
theorem c4_missing_required_characterization (form : FormDefinition) (answers : AnswerMap)
    (field : FormField) (hf : field ∈ form.fields)
    (hv : FormViewer.isFieldVisible answers field = true) (hr : field.required = true) :
    (field ∈ FormViewer.failingFields form answers ↔
      getAnswer answers field.fieldId = none ∨
      (∃ s, getAnswer answers field.fieldId = some (Value.vStr s) ∧
        s.toList.all Char.isWhitespace = true) ∨
      getAnswer answers field.fieldId = some (Value.vList []) ∨
      getAnswer answers field.fieldId = some (Value.vFiles []) ∨
      getAnswer answers field.fieldId = some (Value.vAttach []) ∨
      getAnswer answers field.fieldId = some (Value.vNum 0) ∨
      getAnswer answers field.fieldId = some (Value.vBool false)) := by
  rw [← isMissingRequired_iff]
  simp [FormViewer.failingFields, List.mem_filter, hf, hv, hr]

/-- Claim C4, witness: the characterization applied to the concrete zero
answered age field puts it among the failing fields. -/
theorem c4_missing_required_characterization_witness :
    Examples.fieldAge ∈ FormViewer.failingFields Examples.formAge Examples.ansAgeZero :=
  (c4_missing_required_characterization Examples.formAge Examples.ansAgeZero Examples.fieldAge
    (by decide) (by decide) (by decide)).mpr
    (Or.inr (Or.inr (Or.inr (Or.inr (Or.inr (Or.inl (by decide)))))))

/-- Claim C5, counterexample: with field B hidden and carrying a stale
answer, validation passes and the submitted payload still contains the B
entry, so hidden field answers are not excluded. -/
theorem c5_counterexample :
    FormFiller.isFieldVisible Examples.ansQ Examples.fieldQ2 = false ∧
    getAnswer Examples.ansQ "B" = some (Value.vStr "stale") ∧
    FormFiller.submitPayload Examples.formQ Examples.ansQ = some Examples.ansQ ∧
    getAnswer (FormFiller.processedResponses Examples.ansQ) "B" =
      some (Value.vStr "stale") := by decide

/-- Claim C5, amended: on successful validation the payload is the processed
form of the entire stored answer map, keyed by exactly the same field ids in
the same order; no filtering to the visible fields happens. -/
theorem c5_payload_unfiltered (form : FormDefinition) (answers : AnswerMap)
    (h : FormFiller.validationErrors form answers = []) :
    FormFiller.submitPayload form answers = some (FormFiller.processedResponses answers) ∧
    (FormFiller.processedResponses answers).map Prod.fst = answers.map Prod.fst :=
  ⟨by simp [FormFiller.submitPayload, h], processedResponses_fst answers⟩

/-- Claim C5, witness: the amended theorem applied to the concrete form with
a hidden stale answer. -/
theorem c5_payload_unfiltered_witness :
    FormFiller.submitPayload Examples.formQ Examples.ansQ =
      some (FormFiller.processedResponses Examples.ansQ) ∧
    (FormFiller.processedResponses Examples.ansQ).map Prod.fst =
      Examples.ansQ.map Prod.fst :=
  c5_payload_unfiltered Examples.formQ Examples.ansQ (by decide)

/-- Claim C6, counterexample: a rule whose trigger field id has no answer
evaluates to true, not false, under the notEquals operator. -/
theorem c6_counterexample :
    getAnswer ([] : AnswerMap) "missing" = none ∧
    ruleResult [] (ConditionalRule.mk "missing" Op.notEquals (Prim.pStr "x")) = true := by decide

/-- Claim C6, amended: a numeric operator rule with a non numeric comparand
evaluates false; a rule with a missing trigger answer evaluates false under
every operator except notEquals, where it evaluates true; the evaluator is a
total function, so no input aborts the pass. -/
theorem c6_malformed_rule_defaults (answers : AnswerMap) (rule : ConditionalRule) :
    ((rule.operator = Op.gt ∨ rule.operator = Op.lt) →
      (∀ n : Int, rule.value ≠ Prim.pNum n) → ruleResult answers rule = false) ∧
    (getAnswer answers rule.fieldId = none → rule.operator ≠ Op.notEquals →
      ruleResult answers rule = false) ∧
    (getAnswer answers rule.fieldId = none → rule.operator = Op.notEquals →
      ruleResult answers rule = true) := by
  rcases rule with ⟨fid, op, v⟩
  refine ⟨?_, ?_, ?_⟩
  · intro hop hv
    rcases v with s | n | b
    · rcases hop with h | h <;> subst h <;>
        rcases getAnswer answers fid with _ | val <;> simp [ruleResult]
    · exact absurd rfl (hv n)
    · rcases hop with h | h <;> subst h <;>
        rcases getAnswer answers fid with _ | val <;> simp [ruleResult]
  · intro hga hop
    cases op with
    | notEquals => exact absurd rfl hop
    | equals => simp [ruleResult, hga, strictEqOpt]
    | contains => simp [ruleResult, hga]
    | gt => simp [ruleResult, hga]
    | lt => simp [ruleResult, hga]
  · intro hga hop
    subst hop
    simp [ruleResult, hga, strictEqOpt]

/-- Claim C6, witness: a gt rule with a text comparand, and an equals rule
with a missing trigger, both evaluate false through the amended theorem. -/
theorem c6_malformed_rule_defaults_witness :
    ruleResult [] (ConditionalRule.mk "A" Op.gt (Prim.pStr "5")) = false ∧
    ruleResult [] (ConditionalRule.mk "missing" Op.equals (Prim.pStr "x")) = false :=
  ⟨(c6_malformed_rule_defaults [] (ConditionalRule.mk "A" Op.gt (Prim.pStr "5"))).1
      (Or.inl rfl) (fun n h => Prim.noConfusion h),
   (c6_malformed_rule_defaults []
      (ConditionalRule.mk "missing" Op.equals (Prim.pStr "x"))).2.1 rfl (by decide)⟩

/-- Claim C7: a field hidden by its conditional logic never contributes a
validation error, in the FormViewer and in the FormFiller alike, whatever its
required flag and stored answer. -/
theorem c7_hidden_fields_skip_validation (form : FormDefinition) (answers : AnswerMap)
    (field : FormField) :
    (FormViewer.isFieldVisible answers field = false →
      field ∉ FormViewer.failingFields form answers) ∧
    (FormFiller.isFieldVisible answers field = false →
      field ∉ FormFiller.failingFields form answers) := by
  constructor <;> intro h hmem
  · simp [FormViewer.failingFields, List.mem_filter] at hmem
    rw [hmem.2.2] at h
    cases h
  · simp [FormFiller.failingFields, List.mem_filter] at hmem
    rw [hmem.2.2] at h
    cases h

/-- Claim C7, witness: the concrete hidden required unanswered field is
absent from both failing field lists. -/
theorem c7_hidden_fields_skip_validation_witness :
    Examples.fieldQ2req ∉ FormViewer.failingFields Examples.formQreq Examples.ansQreq ∧
    Examples.fieldQ2req ∉ FormFiller.failingFields Examples.formQreq Examples.ansQreq :=
  ⟨(c7_hidden_fields_skip_validation Examples.formQreq Examples.ansQreq
      Examples.fieldQ2req).1 (by decide),
   (c7_hidden_fields_skip_validation Examples.formQreq Examples.ansQreq
      Examples.fieldQ2req).2 (by decide)⟩

/-- Claim C8: a field with an empty rule list is visible for every answer map
under all three evaluators, and so for both matchMode values. -/
theorem c8_empty_rules_visible (answers : AnswerMap) (field : FormField)
    (h : field.conditionalLogic.rules = []) :
    FormViewer.isFieldVisible answers field = true ∧
    FormBuilder.isFieldVisibleInPreview answers field = true ∧
    FormFiller.isFieldVisible answers field = true := by
  refine ⟨?_, ?_, ?_⟩ <;>
    simp [FormViewer.isFieldVisible, FormBuilder.isFieldVisibleInPreview,
      FormFiller.isFieldVisible, h]

/-- Claim C8, witness: concrete rule free fields, one per matchMode, are
visible under all three evaluators. -/
theorem c8_empty_rules_visible_witness :
    (FormViewer.isFieldVisible Examples.ansAx Examples.fieldNoRulesAll = true ∧
      FormBuilder.isFieldVisibleInPreview Examples.ansAx Examples.fieldNoRulesAll = true ∧
      FormFiller.isFieldVisible Examples.ansAx Examples.fieldNoRulesAll = true) ∧
    (FormViewer.isFieldVisible [] Examples.fieldNoRulesAny = true ∧
      FormBuilder.isFieldVisibleInPreview [] Examples.fieldNoRulesAny = true ∧
      FormFiller.isFieldVisible [] Examples.fieldNoRulesAny = true) :=
  ⟨c8_empty_rules_visible Examples.ansAx Examples.fieldNoRulesAll (by decide),
   c8_empty_rules_visible [] Examples.fieldNoRulesAny (by decide)⟩

/-- Claim C9, counterexample: the builder preview evaluator does not treat a
rule with an unset trigger and empty comparand as vacuously true; it hides
the match any field that holds such a rule. -/
theorem c9_counterexample :
    Examples.fieldUnsetRule.conditionalLogic.matchMode = MatchMode.any ∧
    Examples.unsetRule ∈ Examples.fieldUnsetRule.conditionalLogic.rules ∧
    FormBuilder.isFieldVisibleInPreview [] Examples.fieldUnsetRule = false := by decide

/-- Claim C9, amended: the vacuous truth behaviour lives in the FormFiller
live evaluator, not the builder preview: any field holding a rule with an
unset trigger field id or an empty string comparand is shown, for every
answer map and whatever the matchMode. -/
theorem c9_filler_vacuous_rules (answers : AnswerMap) (field : FormField)
    (r : ConditionalRule) (hr : r ∈ field.conditionalLogic.rules)
    (hbad : r.fieldId = "" ∨ r.value = Prim.pStr "") :
    FormFiller.isFieldVisible answers field = true := by
  unfold FormFiller.isFieldVisible
  have hne : ¬ field.conditionalLogic.rules.length = 0 := by
    intro h0
    rw [List.length_eq_zero] at h0
    rw [h0] at hr
    exact (List.not_mem_nil r) hr
  rw [if_neg hne, List.any_eq_true]
  refine ⟨r, hr, ?_⟩
  rcases hbad with h | h <;> simp [h]

/-- Claim C9, witness: the concrete unset rule field is shown by the
FormFiller with no answers at all. -/
theorem c9_filler_vacuous_rules_witness :
    FormFiller.isFieldVisible [] Examples.fieldUnsetRule = true :=
  c9_filler_vacuous_rules [] Examples.fieldUnsetRule Examples.unsetRule
    (by decide) (Or.inl rfl)

/-- Claim C10: whenever saveForm accepts a form, every conditional rule of
every field has a non empty trigger field id and a comparand that is truthy
or the number 0; contrapositively the builder refuses any form with an empty
trigger or a falsy non zero comparand. -/
theorem c10_saveform_rule_invariant (userId selectedBase selectedTable formName : String)
    (formFields : List FormField)
    (h : FormBuilder.saveFormAccepts userId selectedBase selectedTable formName
      formFields = true) :
    ∀ f ∈ formFields, ∀ r ∈ f.conditionalLogic.rules,
      r.fieldId ≠ "" ∧ (Prim.truthy r.value = true ∨ r.value = Prim.pNum 0) := by
  unfold FormBuilder.saveFormAccepts at h
  split at h
  · cases h
  · have hE : FormBuilder.saveFormValidationErrors formName formFields = [] :=
      of_decide_eq_true h
    rw [FormBuilder.saveFormValidationErrors] at hE
    rcases List.append_eq_nil.mp hE with ⟨_, h2⟩
    exact fieldErrorsList_eq_nil 1 formFields h2

/-- Claim C10, witness: a concrete accepted two field form yields the
invariant for its one rule. -/
theorem c10_saveform_rule_invariant_witness :
    Examples.goodRule.fieldId ≠ "" ∧
      (Prim.truthy Examples.goodRule.value = true ∨ Examples.goodRule.value = Prim.pNum 0) :=
  c10_saveform_rule_invariant "u" "b" "t" "My form"
    [Examples.fieldPlain, Examples.fieldGoodRule] (by decide)
    Examples.fieldGoodRule (by decide) Examples.goodRule (by decide)

end FormSpec
